import Mathlib

/-!
# Verification of the moodboard slideshow widget (src/moodboard.js)

Shallow embedding of the jQuery moodboard plugin.  The DOM/jQuery layer is
modelled by explicit state:

* `SlideCss` — the inline style record written to a slide element by `.css`.
* `Data` — the per-container state object stored under the `moodboard`
  data key (`count`, `current`, `interval`, `slides`, `widths`, `heights`,
  plus the merged configuration).
* `Container` — one container element together with the ambient environment
  that matters to it: its data object (if attached), its CSS marker classes,
  the number of appended `.controls` blocks, the set of live `setInterval`
  registrations, and the `$(window).load` callbacks registered but not yet
  fired.

JavaScript quirks are modelled faithfully:

* the `%` operator is the truncated remainder (`Int.tmod`), not a true
  modulo: `-1 % 5` is `-1`;
* indexing an array outside `[0, length)` yields `undefined`, and calling
  `.css` on `undefined` throws — `JsResult.thrown` carries the state as
  mutated up to the throw point (JS `-0` indexes slot 0, which `Int.tmod`
  returning `0` matches);
* every command body dereferences `data.interval` (or hands `data` to
  `_reveal`), so invoking a command on a container with no attached data
  throws at once;
* the command wrapper `_handler` re-stores the returned value only when it
  is truthy (`if (ret) $moodboard.data('moodboard', ret)`); since the data
  object is mutated in place and attached by reference, this guard is only
  observable for `destroy`, whose `return null` is consequently dropped and
  the data object stays attached;
* `_init_slides` treats a configured width/height of `0` as absent
  (JS falsiness) and falls back to the measured container size.

Pluggable overrides (`_init_slides`, `_init_controls`, `_reveal` passed in
the options) are out of scope; the defaults are modelled, as in the spec.
-/

namespace Moodboard

/-- Inline style record of one slide element (the properties the plugin
writes via `.css`). -/
structure SlideCss where
  width : ℚ
  height : ℚ
  left : ℚ
  top : ℚ
  zIndex : Int
  opacity : ℚ
deriving DecidableEq, Repr, Inhabited

/-- The per-container state object stored under the `moodboard` data key,
after the deferred `window.load` continuation has filled it in.  (Before
that continuation runs, the object exists in the closure but is not yet
attached to the container, so no command can observe it.) -/
structure Data where
  count : Nat
  current : Nat
  interval : Option Nat
  slides : List SlideCss
  widths : List ℚ
  heights : List ℚ
  width : ℚ
  height : ℚ
  slide_time : ℚ
  autostart : Bool
  controls : Bool
deriving DecidableEq, Repr, Inhabited

/-- Recognized configuration options, already merged over the defaults
(`$.extend(data, defaults, options)`): a field left at its default models
an option the caller did not pass. -/
structure Options where
  width : Option ℚ := none
  height : Option ℚ := none
  slide_time : ℚ := 2500
  autostart : Bool := true
  controls : Bool := true
deriving DecidableEq, Repr, Inhabited

/-- One container element plus the ambient browser state relevant to it. -/
structure Container where
  /-- the `moodboard` data object, when attached -/
  data : Option Data
  /-- CSS classes on the container element -/
  classes : List String
  /-- number of appended `.controls` blocks -/
  controlsCount : Nat
  /-- ids of live `setInterval` registrations belonging to this widget -/
  activeTimers : List Nat
  /-- fresh-id source for `setInterval` -/
  nextId : Nat
  /-- whether the `window.load` event has fired -/
  loaded : Bool
  /-- options captured by `$(window).load` callbacks not yet fired,
  in registration order -/
  pending : List Options
deriving DecidableEq, Repr, Inhabited

/-- Result of a JS computation that may throw; both constructors carry the
state as mutated up to the return/throw point. -/
inductive JsResult (α : Type) where
  | ok : α → JsResult α
  | thrown : α → JsResult α
deriving DecidableEq, Repr

/-- The state carried by a `JsResult`, whether it returned or threw. -/
def JsResult.state : JsResult α → α
  | .ok a => a
  | .thrown a => a

/-- Whether the computation threw. -/
def JsResult.isThrown : JsResult α → Bool
  | .ok _ => false
  | .thrown _ => true

/-- JS `Math.max` on two numbers: the larger argument. -/
def mathMax (a b : ℚ) : ℚ :=
  if a ≤ b then b else a

/-- `jQuery.addClass`: appends the class unless already present. -/
def addClass (cs : List String) (x : String) : List String :=
  if x ∈ cs then cs else cs ++ [x]

/-- `jQuery.removeClass`: removes every occurrence of the class. -/
def removeClass (cs : List String) (x : String) : List String :=
  cs.filter (fun c => c ≠ x)

/-- `data.slides[i].css({'z-index': z, opacity: op})`: overwrite the
z-index and opacity of slide `i` (callers guard that `i` is in range). -/
def cssSet (slides : List SlideCss) (i : Nat) (z : Int) (op : ℚ) : List SlideCss :=
  slides.set i { slides.getD i default with zIndex := z, opacity := op }

/-- Default `_reveal($mb, data, newidx)` from the source:

    data.slides[data.current].css({'z-index': 100, opacity: 0});
    data.slides[newidx].css({'z-index': 101, opacity: 1});
    data.current = newidx;

`newidx` is an arbitrary JS number (an `Int` here).  A lookup outside
`[0, length)` yields `undefined` and the `.css` call throws, leaving the
mutations made so far in place. -/
def _reveal (d : Data) (newidx : Int) : JsResult Data :=
  if d.current < d.slides.length then
    let d1 : Data := { d with slides := cssSet d.slides d.current 100 0 }
    if 0 ≤ newidx ∧ newidx.toNat < d1.slides.length then
      let d2 : Data := { d1 with slides := cssSet d1.slides newidx.toNat 101 1 }
      JsResult.ok { d2 with current := newidx.toNat }
    else
      JsResult.thrown d1
  else
    JsResult.thrown d

/-- Run `_reveal` against the container, keeping the (in-place mutated)
data object attached whether or not the reveal threw. -/
def containerReveal (c : Container) (d : Data) (newidx : Int) : JsResult Container :=
  match _reveal d newidx with
  | .ok d2 => JsResult.ok { c with data := some d2 }
  | .thrown d2 => JsResult.thrown { c with data := some d2 }

/-- Body of `methods.pause`: `if (data.interval) { clearInterval; interval
= null; removeClass('playing') }`; a no-op when no interval is set.
Returns the container and the (shared, possibly mutated) data object. -/
def pauseStep (c : Container) (d : Data) : Container × Data :=
  match d.interval with
  | some id =>
      let d2 : Data := { d with interval := none }
      ({ c with data := some d2,
                activeTimers := c.activeTimers.filter (fun t => t ≠ id),
                classes := removeClass c.classes "playing" }, d2)
  | none => (c, d)

/-- Body of `methods.play`: `if (!data.interval) { addClass('playing');
data.interval = setInterval(...) }`; a no-op when already playing. -/
def playStep (c : Container) (d : Data) : Container × Data :=
  match d.interval with
  | some _ => (c, d)
  | none =>
      let id := c.nextId
      let d2 : Data := { d with interval := some id }
      ({ c with classes := addClass c.classes "playing",
                data := some d2,
                activeTimers := id :: c.activeTimers,
                nextId := id + 1 }, d2)

/-- `methods.next`: pause if playing, then reveal `(current + 1) % count`. -/
def nextFn (c : Container) (d : Data) : JsResult Container :=
  let p := pauseStep c d
  containerReveal p.1 p.2 (Int.tmod ((p.2.current : Int) + 1) (p.2.count : Int))

/-- `methods.previous`: pause if playing, then reveal
`(current + count - 1) % count`. -/
def previousFn (c : Container) (d : Data) : JsResult Container :=
  let p := pauseStep c d
  containerReveal p.1 p.2
    (Int.tmod ((p.2.current : Int) + (p.2.count : Int) - 1) (p.2.count : Int))

/-- `methods.jump`: pause if playing, then reveal `newidx % count` —
JS truncated remainder, so a negative argument can produce a negative
index.  (When `count = 0`, JS produces `NaN`; `slides` is empty in every
reachable such state, so the reveal throws on the first lookup either
way.) -/
def jumpFn (c : Container) (d : Data) (newidx : Int) : JsResult Container :=
  let p := pauseStep c d
  containerReveal p.1 p.2 (Int.tmod newidx (p.2.count : Int))

/-- `methods.play` under the `_handler` wrapper (returns `undefined`; the
shared data object was mutated in place). -/
def playFn (c : Container) (d : Data) : JsResult Container :=
  JsResult.ok (playStep c d).1

/-- `methods.pause` under the `_handler` wrapper. -/
def pauseFn (c : Container) (d : Data) : JsResult Container :=
  JsResult.ok (pauseStep c d).1

/-- `methods.playpause`: dispatch on `data.interval`. -/
def playpauseFn (c : Container) (d : Data) : JsResult Container :=
  match d.interval with
  | some _ => pauseFn c d
  | none => playFn c d

/-- `methods.destroy`: `if (data.interval) clearInterval(data.interval);
removeClass('playing').find('.controls').remove(); return null;`.

The `null` return is dropped by `_handler`'s `if (ret)` guard, so the data
object — whose `interval` field was never cleared — remains attached. -/
def destroyFn (c : Container) (d : Data) : JsResult Container :=
  let c1 :=
    match d.interval with
    | some id => { c with activeTimers := c.activeTimers.filter (fun t => t ≠ id) }
    | none => c
  JsResult.ok { c1 with classes := removeClass c1.classes "playing", controlsCount := 0 }

/-- The command surface reachable through `$.fn.moodboard('name', ...)`
(other than `init`, which has its own non-`_handler` body). -/
inductive Cmd where
  | next
  | previous
  | jump (n : Int)
  | play
  | pause
  | playpause
  | destroy
deriving DecidableEq, Repr

/-- `_handler` applied to a command: read the attached data; every command
body dereferences it immediately, so an unattached container throws
(`TypeError` reading a property of `undefined`). -/
def runCmd (c : Container) (cmd : Cmd) : JsResult Container :=
  match c.data with
  | none => JsResult.thrown c
  | some d =>
      match cmd with
      | .next => nextFn c d
      | .previous => previousFn c d
      | .jump n => jumpFn c d n
      | .play => playFn c d
      | .pause => pauseFn c d
      | .playpause => playpauseFn c d
      | .destroy => destroyFn c d

/-- One firing of the `setInterval` callback registered by `play`:
`_reveal($mb, data, (data.current + 1) % data.count)` followed by a
re-store of the same object.  Fires only while its registration is live;
the callback shares the data object attached to the container. -/
def tick (c : Container) (id : Nat) : JsResult Container :=
  if id ∈ c.activeTimers then
    match c.data with
    | some d => containerReveal c d (Int.tmod ((d.current : Int) + 1) (d.count : Int))
    | none => JsResult.thrown c
  else
    JsResult.ok c

/-- Measured geometry at `window.load` time: one (width, height) pair per
`.slide` child, and the container's own measured size. -/
structure Env where
  slideDims : List (ℚ × ℚ)
  mbWidth : ℚ
  mbHeight : ℚ
deriving DecidableEq, Repr, Inhabited

/-- `if (!data.width) data.width = $mb.width();` — a configured value of
`0` is falsy in JS, so it also falls back to the measured size. -/
def resolveDim (configured : Option ℚ) (measured : ℚ) : ℚ :=
  match configured with
  | some w => if w = 0 then measured else w
  | none => measured

/-- Default `_init_slides` body, after the width/height resolution: style
slide `i` with box `widths[i] × heights[i]`, offsets clamped at zero, and
opacity `1` for slide 0, `0` otherwise. -/
def _init_slides (W H : ℚ) (widths heights : List ℚ) (slides : List SlideCss) :
    List SlideCss :=
  (List.range slides.length).map (fun i =>
    { slides.getD i default with
        width := widths.getD i 0,
        height := heights.getD i 0,
        left := mathMax 0 ((W - widths.getD i 0) / 2),
        top := mathMax 0 ((H - heights.getD i 0) / 2),
        opacity := if i = 0 then 1 else 0 })

/-- The `window.load` continuation registered by `_do_initialize` for one
`init` call: measure the slides, run `_init_slides` (resolving the
container size first), render controls if enabled, attach the data object,
autostart via `playpause` when more than one slide, and add the
`moodboard` marker class. -/
def runLoadCont (env : Env) (opts : Options) (c : Container) : Container :=
  let widths := env.slideDims.map Prod.fst
  let heights := env.slideDims.map Prod.snd
  let W := resolveDim opts.width env.mbWidth
  let H := resolveDim opts.height env.mbHeight
  let slides := _init_slides W H widths heights
    (env.slideDims.map (fun _ => (default : SlideCss)))
  let d : Data :=
    { count := env.slideDims.length
      current := 0
      interval := none
      slides := slides
      widths := widths
      heights := heights
      width := W
      height := H
      slide_time := opts.slide_time
      autostart := opts.autostart
      controls := opts.controls }
  let c1 := if opts.controls then { c with controlsCount := c.controlsCount + 1 } else c
  let c2 : Container := { c1 with data := some d }
  let c3 :=
    if opts.autostart && decide (1 < env.slideDims.length) then
      (runCmd c2 Cmd.playpause).state
    else c2
  { c3 with classes := addClass c3.classes "moodboard" }

/-- `methods.init`: if data is already attached, do nothing; otherwise
`_do_initialize` builds a fresh state and registers a `window.load`
callback (it does not check for an earlier registration). -/
def init (c : Container) (opts : Options) : Container :=
  match c.data with
  | some _ => c
  | none => { c with pending := c.pending ++ [opts] }

/-- The `window.load` event: run every registered callback in registration
order, once. -/
def fireLoad (env : Env) (c : Container) : Container :=
  let c1 := c.pending.foldl (fun acc opts => runLoadCont env opts acc) c
  { c1 with pending := [], loaded := true }

/-- A container element before any `init` call. -/
def freshC : Container :=
  { data := none, classes := [], controlsCount := 0, activeTimers := [],
    nextId := 0, loaded := false, pending := [] }

/-- An environment with `n` slides of 400×300 in an 800×600 container. -/
def envN (n : Nat) : Env :=
  { slideDims := List.replicate n (400, 300), mbWidth := 800, mbHeight := 600 }

/-- A board initialized with default options on `n` slides, after the
load event. -/
def mkBoard (n : Nat) : Container :=
  fireLoad (envN n) (init freshC {})

/-- The attached data object (callers establish `c.data.isSome`). -/
def theData (c : Container) : Data :=
  c.data.getD default

/-- Opacity of slide `j` as styled. -/
def opacAt (d : Data) (j : Nat) : ℚ :=
  (d.slides.getD j default).opacity

/-- z-index of slide `j` as styled. -/
def zAt (d : Data) (j : Nat) : Int :=
  (d.slides.getD j default).zIndex

/-- The reveal invariant of §3 of the spec on one data record: the slide
lists are parallel, `current` is in range, the current slide has opacity 1
and a z-index at least that of every other slide, and every other slide
has opacity 0 (with z-index at most 100 — the value `_reveal` assigns to
an outgoing slide, an auxiliary bound that makes the invariant
inductive). -/
def Inv5 (d : Data) : Prop :=
  d.slides.length = d.count ∧ d.current < d.count ∧ opacAt d d.current = 1 ∧
  ∀ j, j < d.count → j ≠ d.current →
    opacAt d j = 0 ∧ zAt d j ≤ zAt d d.current ∧ zAt d j ≤ 100

/-- Timer-book-keeping invariant relative to one interval handle: the
handle is set exactly when one live timer (that one) exists and the
`playing` marker class is present. -/
def TimerHandleInv (intv : Option Nat) (timers : List Nat) (classes : List String) :
    Prop :=
  match intv with
  | some id => timers = [id] ∧ "playing" ∈ classes
  | none => timers = [] ∧ "playing" ∉ classes

/-- The §3 invariant `timerHandle` non-null iff logically playing, on a
container (vacuous while no data is attached). -/
def TimerInv (c : Container) : Prop :=
  match c.data with
  | none => True
  | some d => TimerHandleInv d.interval c.activeTimers c.classes

instance (d : Data) : Decidable (Inv5 d) := by
  unfold Inv5
  infer_instance

instance (intv : Option Nat) (timers : List Nat) (classes : List String) :
    Decidable (TimerHandleInv intv timers classes) := by
  unfold TimerHandleInv
  cases intv <;> infer_instance

instance (c : Container) : Decidable (TimerInv c) := by
  unfold TimerInv
  cases c.data <;> infer_instance

/-- A hand-written slide style record (400×300 centered in 800×600). -/
def slideLit (op : ℚ) : SlideCss :=
  { width := 400, height := 300, left := 200, top := 150, zIndex := 0, opacity := op }

/-- A hand-written 3-slide data record in the idle (not playing) state. -/
def dIdle : Data :=
  { count := 3, current := 0, interval := none,
    slides := [slideLit 1, slideLit 0, slideLit 0],
    widths := [400, 400, 400], heights := [300, 300, 300],
    width := 800, height := 600, slide_time := 2500,
    autostart := true, controls := true }

/-- A container holding `dIdle`, used to instantiate theorems at a
concrete input. -/
def cIdle : Container :=
  { data := some dIdle, classes := ["moodboard"], controlsCount := 1,
    activeTimers := [], nextId := 1, loaded := true, pending := [] }

/-- The same board while playing (handle 7, one live timer). -/
def dPlaying : Data :=
  { dIdle with interval := some 7 }

/-- A container holding `dPlaying`. -/
def cPlaying : Container :=
  { cIdle with data := some dPlaying, activeTimers := [7],
               classes := ["moodboard", "playing"], nextId := 8 }

/-! ## Basic lemmas -/

theorem cssSet_length (s : List SlideCss) (i : Nat) (z : Int) (op : ℚ) :
    (cssSet s i z op).length = s.length := by
  simp [cssSet]

theorem init_noop_of_attached (c : Container) (opts : Options)
    (h : c.data.isSome = true) : init c opts = c := by
  rcases hc : c.data with _ | d
  · rw [hc] at h
    simp at h
  · simp [init, hc]

/-! ## Claims -/

/-- C3 (counterexample): invoking `destroy` on a container with no
attached state is not error-free: the handler body dereferences the
absent data object and throws. -/
theorem C3_counterexample :
    JsResult.isThrown (runCmd freshC Cmd.destroy) = true := by decide

/-- C3 (amended): calling `destroy` on a container that is not
initialized throws (a `TypeError` reading `data.interval` of
`undefined`) and leaves the container state unchanged. -/
theorem C3_destroy_uninitialized_throws (c : Container) (h : c.data = none) :
    runCmd c Cmd.destroy = JsResult.thrown c := by
  simp [runCmd, h]

theorem C3_witness :
    freshC.data = none ∧ runCmd freshC Cmd.destroy = JsResult.thrown freshC :=
  ⟨rfl, C3_destroy_uninitialized_throws freshC rfl⟩

/-- C8: calling `pause` on an initialized slideshow that is not playing
returns without error and leaves the whole container (data, classes,
timers) unchanged. -/
theorem C8_pause_not_playing_noop (c : Container) (d : Data)
    (h : c.data = some d) (hi : d.interval = none) :
    runCmd c Cmd.pause = JsResult.ok c := by
  simp [runCmd, h, pauseFn, pauseStep, hi]

theorem C8_witness :
    cIdle.data = some dIdle ∧ dIdle.interval = none ∧
      runCmd cIdle Cmd.pause = JsResult.ok cIdle :=
  ⟨rfl, rfl, C8_pause_not_playing_noop cIdle dIdle rfl rfl⟩

/-- C1: the claim says `jump(n)` reveals slide
`((n % slideCount) + slideCount) % slideCount` for every integer `n`, and
that `jump(-1)` on a 5-slide board at index 0 reveals index 4.  The code
uses the JS truncated remainder: on the 5-slide board `jump(-1)` computes
index `-1 % 5 = -1` (while the claim's normalization gives 4), hides the
current slide, then throws on `slides[-1]`; index 4 is never revealed and
`current` is unchanged. -/
theorem C1_jump_remainder_bug :
    (Int.tmod (-1) 5 + 5).tmod 5 = 4 ∧
    Int.tmod (-1) 5 = -1 ∧
    JsResult.isThrown (runCmd (mkBoard 5) (Cmd.jump (-1))) = true ∧
    (theData (JsResult.state (runCmd (mkBoard 5) (Cmd.jump (-1))))).current = 0 ∧
    opacAt (theData (JsResult.state (runCmd (mkBoard 5) (Cmd.jump (-1))))) 4 = 0 := by
  decide

/-- C2: the claim says `destroy` detaches the state so a later `init`
fully reinitializes.  In the code `destroy` returns `null`, which the
`_handler` guard `if (ret)` drops: after `destroy` on an initialized
3-slide board the data object is still attached (with its stale interval
handle), so the subsequent `init` call is a no-op (it registers no load
continuation and changes nothing). -/
theorem C2_destroy_not_detached :
    (JsResult.state (runCmd (mkBoard 3) Cmd.destroy)).data.isSome = true ∧
    (theData (JsResult.state (runCmd (mkBoard 3) Cmd.destroy))).interval.isSome = true ∧
    (JsResult.state (runCmd (mkBoard 3) Cmd.destroy)).activeTimers = [] ∧
    init (JsResult.state (runCmd (mkBoard 3) Cmd.destroy)) {} =
      JsResult.state (runCmd (mkBoard 3) Cmd.destroy) := by
  refine ⟨by decide, by decide, by decide,
    init_noop_of_attached _ {} (by decide)⟩

/-- C4 (counterexample): a second `init` call issued before the window
load event is not a no-op — it registers a second load continuation, and
when the load event fires the measurement/layout continuation runs twice:
on a 2-slide board the result has two live autoplay timers and two
rendered `.controls` blocks. -/
theorem C4_counterexample :
    init (init freshC {}) {} ≠ init freshC {} ∧
    (init (init freshC {}) {}).pending.length = 2 ∧
    (fireLoad (envN 2) (init (init freshC {}) {})).activeTimers.length = 2 ∧
    (fireLoad (envN 2) (init (init freshC {}) {})).controlsCount = 2 := by
  decide

/-- C4 (amended): initialization is idempotent once the deferred load
continuation has run and attached the state: any `init` call on a
container with attached data is a no-op.  A second call made before the
load event fires instead registers a second continuation, which also
runs. -/
theorem C4_init_noop_when_initialized (c : Container) (opts : Options)
    (h : c.data.isSome = true) : init c opts = c :=
  init_noop_of_attached c opts h

theorem C4_witness :
    (mkBoard 3).data.isSome = true ∧ init (mkBoard 3) {} = mkBoard 3 :=
  ⟨by decide, C4_init_noop_when_initialized (mkBoard 3) {} (by decide)⟩

theorem mathMax_eq_max (a b : ℚ) : mathMax a b = max a b := by
  unfold mathMax
  split
  · exact (max_eq_right (by assumption)).symm
  · exact (max_eq_left (le_of_not_le (by assumption))).symm

theorem _init_slides_getD (W H : ℚ) (widths heights : List ℚ)
    (slides : List SlideCss) (i : Nat) (hi : i < slides.length) :
    (_init_slides W H widths heights slides).getD i default =
      { slides.getD i default with
          width := widths.getD i 0,
          height := heights.getD i 0,
          left := mathMax 0 ((W - widths.getD i 0) / 2),
          top := mathMax 0 ((H - heights.getD i 0) / 2),
          opacity := if i = 0 then 1 else 0 } := by
  unfold _init_slides
  rw [List.getD_eq_getElem?_getD, List.getElem?_map, List.getElem?_range hi]
  rfl

/-- C9: the default slide-layout step sets, for every in-range index `i`,
the slide box to `widths[i] × heights[i]`, the offsets to
`max 0 ((container - slide)/2)` in each axis (never negative), and the
opacity to 1 exactly when `i = 0`. -/
theorem C9_default_layout (W H : ℚ) (widths heights : List ℚ)
    (slides : List SlideCss) (i : Nat) (hi : i < slides.length) :
    ((_init_slides W H widths heights slides).getD i default).width =
        widths.getD i 0 ∧
    ((_init_slides W H widths heights slides).getD i default).height =
        heights.getD i 0 ∧
    ((_init_slides W H widths heights slides).getD i default).left =
        max 0 ((W - widths.getD i 0) / 2) ∧
    ((_init_slides W H widths heights slides).getD i default).top =
        max 0 ((H - heights.getD i 0) / 2) ∧
    ((_init_slides W H widths heights slides).getD i default).opacity =
        (if i = 0 then 1 else 0) := by
  rw [_init_slides_getD W H widths heights slides i hi]
  exact ⟨rfl, rfl, mathMax_eq_max _ _, mathMax_eq_max _ _, rfl⟩

theorem C9_witness :
    0 < [slideLit 1].length ∧
    (((_init_slides 800 600 [400] [300] [slideLit 1]).getD 0 default).width =
        List.getD [400] 0 0 ∧
     ((_init_slides 800 600 [400] [300] [slideLit 1]).getD 0 default).height =
        List.getD [300] 0 0 ∧
     ((_init_slides 800 600 [400] [300] [slideLit 1]).getD 0 default).left =
        max 0 ((800 - List.getD [400] 0 0) / 2) ∧
     ((_init_slides 800 600 [400] [300] [slideLit 1]).getD 0 default).top =
        max 0 ((600 - List.getD [300] 0 0) / 2) ∧
     ((_init_slides 800 600 [400] [300] [slideLit 1]).getD 0 default).opacity =
        (if 0 = 0 then 1 else 0)) :=
  ⟨by decide, C9_default_layout 800 600 [400] [300] [slideLit 1] 0 (by decide)⟩

theorem mem_addClass (cs : List String) (x y : String) (hx : x ∈ cs) :
    x ∈ addClass cs y := by
  unfold addClass
  split
  · exact hx
  · exact List.mem_append_left _ hx

theorem mem_removeClass (cs : List String) (x y : String) (hx : x ∈ cs)
    (hne : x ≠ y) : x ∈ removeClass cs y := by
  unfold removeClass
  exact List.mem_filter.mpr ⟨hx, by simp [hne]⟩

theorem classes_state_containerReveal (c : Container) (d : Data) (k : Int) :
    (JsResult.state (containerReveal c d k)).classes = c.classes := by
  unfold containerReveal
  cases h : _reveal d k <;> simp [h, JsResult.state]

theorem pauseStep_classes (c : Container) (d : Data) :
    (pauseStep c d).1.classes = c.classes ∨
    (pauseStep c d).1.classes = removeClass c.classes "playing" := by
  cases hd : d.interval <;> simp [pauseStep, hd]

theorem mem_pauseStep_classes (c : Container) (d : Data) (x : String)
    (hx : x ∈ c.classes) (hne : x ≠ "playing") :
    x ∈ (pauseStep c d).1.classes := by
  rcases pauseStep_classes c d with h | h <;> rw [h]
  · exact hx
  · exact mem_removeClass _ _ _ hx hne

/-- C10: `destroy` changes the class list exactly by removing `playing`
(and drops the rendered `.controls` blocks); the `moodboard` marker class
added at the end of initialization is preserved by every command,
including `destroy`, and by `init`. -/
theorem C10_moodboard_class_persists (c : Container) (d : Data)
    (h : c.data = some d) :
    ((JsResult.state (runCmd c Cmd.destroy)).classes =
        removeClass c.classes "playing" ∧
     (JsResult.state (runCmd c Cmd.destroy)).controlsCount = 0) ∧
    (∀ cmd, "moodboard" ∈ c.classes →
      "moodboard" ∈ (JsResult.state (runCmd c cmd)).classes) ∧
    (∀ opts, "moodboard" ∈ c.classes →
      "moodboard" ∈ (init c opts).classes) := by
  have hne : ("moodboard" : String) ≠ "playing" := by decide
  refine ⟨?_, ?_, ?_⟩
  · cases hd : d.interval <;>
      simp [runCmd, h, destroyFn, hd, JsResult.state]
  · intro cmd hmem
    cases cmd with
    | next =>
        simp only [runCmd, h, nextFn]
        rw [classes_state_containerReveal]
        exact mem_pauseStep_classes c d _ hmem hne
    | previous =>
        simp only [runCmd, h, previousFn]
        rw [classes_state_containerReveal]
        exact mem_pauseStep_classes c d _ hmem hne
    | jump n =>
        simp only [runCmd, h, jumpFn]
        rw [classes_state_containerReveal]
        exact mem_pauseStep_classes c d _ hmem hne
    | play =>
        cases hd : d.interval with
        | some id =>
            simp only [runCmd, h, playFn, playStep, hd, JsResult.state]
            exact hmem
        | none =>
            simp only [runCmd, h, playFn, playStep, hd, JsResult.state]
            exact mem_addClass _ _ _ hmem
    | pause =>
        simp only [runCmd, h, pauseFn, JsResult.state]
        exact mem_pauseStep_classes c d _ hmem hne
    | playpause =>
        cases hd : d.interval with
        | some id =>
            simp only [runCmd, h, playpauseFn, hd, pauseFn, JsResult.state]
            exact mem_pauseStep_classes c d _ hmem hne
        | none =>
            simp only [runCmd, h, playpauseFn, hd, playFn, playStep,
              JsResult.state]
            exact mem_addClass _ _ _ hmem
    | destroy =>
        cases hd : d.interval <;>
          simp only [runCmd, h, destroyFn, hd, JsResult.state] <;>
          exact mem_removeClass _ _ _ hmem hne
  · intro opts hmem
    rw [init_noop_of_attached c opts (by rw [h]; rfl)]
    exact hmem

theorem C10_witness :
    cPlaying.data = some dPlaying ∧
    (((JsResult.state (runCmd cPlaying Cmd.destroy)).classes =
        removeClass cPlaying.classes "playing" ∧
      (JsResult.state (runCmd cPlaying Cmd.destroy)).controlsCount = 0) ∧
     (∀ cmd, "moodboard" ∈ cPlaying.classes →
       "moodboard" ∈ (JsResult.state (runCmd cPlaying cmd)).classes) ∧
     (∀ opts, "moodboard" ∈ cPlaying.classes →
       "moodboard" ∈ (init cPlaying opts).classes)) :=
  ⟨rfl, C10_moodboard_class_persists cPlaying dPlaying rfl⟩

/-- C5: the reveal invariant (exactly one revealed slide, elevated above
the rest) holds for the freshly initialized 5-slide board, yet a single
accepted command argument destroys it: `jump(-1)` sets the current
slide's opacity to 0 and then throws on the negative index, leaving no
slide revealed at all. -/
theorem C5_invariant_broken_by_jump :
    Inv5 (theData (mkBoard 5)) ∧
    JsResult.isThrown (runCmd (mkBoard 5) (Cmd.jump (-1))) = true ∧
    (∀ j, j < 5 →
      opacAt (theData (JsResult.state (runCmd (mkBoard 5) (Cmd.jump (-1))))) j ≠ 1) := by
  decide

/-! ## Arithmetic and step lemmas for C6 and C7 -/

theorem tmod_natCast (m n : Nat) :
    Int.tmod (m : Int) (n : Int) = ((m % n : Nat) : Int) := rfl

theorem next_prev_index (i c : Nat) (hi : i < c) :
    ((i + 1) % c + c - 1) % c = i := by
  rcases Nat.lt_or_ge (i + 1) c with hlt | hge
  · rw [Nat.mod_eq_of_lt hlt]
    have he : i + 1 + c - 1 = i + c := by omega
    rw [he, Nat.add_mod_right, Nat.mod_eq_of_lt hi]
  · have he : i + 1 = c := by omega
    rw [he, Nat.mod_self]
    have h2 : 0 + c - 1 = i := by omega
    rw [h2, Nat.mod_eq_of_lt hi]

theorem pauseStep_snd (c : Container) (d : Data) :
    (pauseStep c d).2.current = d.current ∧ (pauseStep c d).2.count = d.count ∧
    (pauseStep c d).2.slides = d.slides := by
  cases hd : d.interval <;> simp [pauseStep, hd]

theorem pauseStep_fst_data (c : Container) (d : Data) (h : c.data = some d) :
    (pauseStep c d).1.data = some (pauseStep c d).2 := by
  cases hd : d.interval <;> simp [pauseStep, hd, h]

theorem pauseStep_snd_interval (c : Container) (d : Data) :
    (pauseStep c d).2.interval = none ∨ (pauseStep c d).2.interval = d.interval := by
  cases hd : d.interval <;> simp [pauseStep, hd]

theorem _reveal_ok_nat (d : Data) (m : Nat) (h0 : d.current < d.slides.length)
    (h2 : m < d.slides.length) :
    _reveal d (m : Int) = JsResult.ok
      { d with slides := cssSet (cssSet d.slides d.current 100 0) m 101 1,
               current := m } := by
  have h2r : m < (cssSet d.slides d.current 100 0).length := by
    rw [cssSet_length]
    exact h2
  have h1 : (0 : Int) ≤ (m : Int) := Int.natCast_nonneg _
  simp [_reveal, h0, h1, h2r, Int.toNat_natCast]

theorem containerReveal_ok (c : Container) (d : Data) (k : Int) (d2 : Data)
    (hr : _reveal d k = JsResult.ok d2) :
    containerReveal c d k = JsResult.ok { c with data := some d2 } := by
  simp [containerReveal, hr]

theorem state_containerReveal (c : Container) (d : Data) (k : Int) :
    JsResult.state (containerReveal c d k) =
      { c with data := some (JsResult.state (_reveal d k)) } := by
  unfold containerReveal
  cases hr : _reveal d k <;> simp [hr, JsResult.state]

theorem _reveal_state_interval (d : Data) (k : Int) :
    (JsResult.state (_reveal d k)).interval = d.interval := by
  simp only [_reveal]
  split
  · split
    · rfl
    · rfl
  · rfl

/-- `runCmd next` on a well-formed state succeeds and advances `current`
to `(current + 1) % count`, keeping count and slide list length and
clearing the interval handle. -/
theorem runCmd_next_spec (c : Container) (d : Data) (h : c.data = some d)
    (hlen : d.slides.length = d.count) (hcur : d.current < d.count) :
    ∃ c2, runCmd c Cmd.next = JsResult.ok c2 ∧
      (theData c2).current = (d.current + 1) % d.count ∧
      (theData c2).count = d.count ∧
      (theData c2).slides.length = d.count ∧
      (theData c2).interval = none ∧
      c2.data.isSome = true := by
  obtain ⟨hc1, hc2, hc3⟩ := pauseStep_snd c d
  have hcount : 0 < d.count := Nat.lt_of_le_of_lt (Nat.zero_le _) hcur
  have hpi : (pauseStep c d).2.interval = none := by
    cases hd : d.interval <;> simp [pauseStep, hd]
  have hm : (d.current + 1) % d.count < d.count := Nat.mod_lt _ hcount
  have h0 : (pauseStep c d).2.current < (pauseStep c d).2.slides.length := by
    rw [hc1, hc3, hlen]
    exact hcur
  have h2 : (d.current + 1) % d.count < (pauseStep c d).2.slides.length := by
    rw [hc3, hlen]
    exact hm
  have hre := _reveal_ok_nat (pauseStep c d).2 ((d.current + 1) % d.count) h0 h2
  have hidx : Int.tmod (((pauseStep c d).2.current : Int) + 1)
      ((pauseStep c d).2.count : Int) = (((d.current + 1) % d.count : Nat) : Int) := by
    rw [hc1, hc2, ← Nat.cast_succ, tmod_natCast]
  have e : runCmd c Cmd.next = JsResult.ok
      { (pauseStep c d).1 with data := some (
        { (pauseStep c d).2 with
            slides := cssSet (cssSet (pauseStep c d).2.slides
              (pauseStep c d).2.current 100 0) ((d.current + 1) % d.count) 101 1,
            current := (d.current + 1) % d.count }) } := by
    simp only [runCmd, h, nextFn]
    rw [hidx]
    exact containerReveal_ok _ _ _ _ hre
  refine ⟨_, e, ?_, ?_, ?_, ?_, ?_⟩
  · simp [theData]
  · simp [theData, hc2]
  · simp [theData, cssSet_length, hc3, hlen]
  · simp [theData, hpi]
  · simp [theData]

/-- `runCmd previous` on a well-formed state succeeds and moves `current`
to `(current + count - 1) % count`. -/
theorem runCmd_previous_spec (c : Container) (d : Data) (h : c.data = some d)
    (hlen : d.slides.length = d.count) (hcur : d.current < d.count) :
    ∃ c2, runCmd c Cmd.previous = JsResult.ok c2 ∧
      (theData c2).current = (d.current + d.count - 1) % d.count ∧
      (theData c2).count = d.count ∧
      (theData c2).slides.length = d.count ∧
      c2.data.isSome = true := by
  obtain ⟨hc1, hc2, hc3⟩ := pauseStep_snd c d
  have hcount : 0 < d.count := Nat.lt_of_le_of_lt (Nat.zero_le _) hcur
  have hm : (d.current + d.count - 1) % d.count < d.count := Nat.mod_lt _ hcount
  have h0 : (pauseStep c d).2.current < (pauseStep c d).2.slides.length := by
    rw [hc1, hc3, hlen]
    exact hcur
  have h2 : (d.current + d.count - 1) % d.count < (pauseStep c d).2.slides.length := by
    rw [hc3, hlen]
    exact hm
  have hre := _reveal_ok_nat (pauseStep c d).2 ((d.current + d.count - 1) % d.count) h0 h2
  have hidx : Int.tmod (((pauseStep c d).2.current : Int) +
      ((pauseStep c d).2.count : Int) - 1) ((pauseStep c d).2.count : Int) =
      (((d.current + d.count - 1) % d.count : Nat) : Int) := by
    rw [hc1, hc2]
    have he : ((d.current : Int) + (d.count : Int) - 1) =
        ((d.current + d.count - 1 : Nat) : Int) := by
      omega
    rw [he, tmod_natCast]
  have e : runCmd c Cmd.previous = JsResult.ok
      { (pauseStep c d).1 with data := some (
        { (pauseStep c d).2 with
            slides := cssSet (cssSet (pauseStep c d).2.slides
              (pauseStep c d).2.current 100 0)
              ((d.current + d.count - 1) % d.count) 101 1,
            current := (d.current + d.count - 1) % d.count }) } := by
    simp only [runCmd, h, previousFn]
    rw [hidx]
    exact containerReveal_ok _ _ _ _ hre
  refine ⟨_, e, ?_, ?_, ?_, ?_⟩
  · simp [theData]
  · simp [theData, hc2]
  · simp [theData, cssSet_length, hc3, hlen]
  · simp [theData]

/-- C7: from any well-formed initialized state, `next` followed by
`previous` succeeds and returns `currentIndex` to its original value. -/
theorem C7_next_previous_inverse (c : Container) (d : Data) (h : c.data = some d)
    (hlen : d.slides.length = d.count) (hcur : d.current < d.count) :
    ∃ c1 c2, runCmd c Cmd.next = JsResult.ok c1 ∧
      runCmd c1 Cmd.previous = JsResult.ok c2 ∧
      (theData c2).current = d.current := by
  obtain ⟨c1, hn, hcu, hco, hsl, _, hso⟩ := runCmd_next_spec c d h hlen hcur
  have h1 : c1.data = some (theData c1) := by
    rcases hc : c1.data with _ | dd
    · rw [hc] at hso
      simp at hso
    · simp [theData, hc]
  have hcur1 : (theData c1).current < (theData c1).count := by
    rw [hcu, hco]
    exact Nat.mod_lt _ (Nat.lt_of_le_of_lt (Nat.zero_le _) hcur)
  have hlen1 : (theData c1).slides.length = (theData c1).count := by
    rw [hsl, hco]
  obtain ⟨c2, hp, hcu2, _, _, _⟩ := runCmd_previous_spec c1 (theData c1) h1 hlen1 hcur1
  refine ⟨c1, c2, hn, hp, ?_⟩
  rw [hcu2, hcu, hco]
  exact next_prev_index d.current d.count hcur

theorem C7_witness :
    cIdle.data = some dIdle ∧ dIdle.slides.length = dIdle.count ∧
      dIdle.current < dIdle.count ∧
      (∃ c1 c2, runCmd cIdle Cmd.next = JsResult.ok c1 ∧
        runCmd c1 Cmd.previous = JsResult.ok c2 ∧
        (theData c2).current = dIdle.current) :=
  ⟨rfl, rfl, by decide, C7_next_previous_inverse cIdle dIdle rfl rfl (by decide)⟩

/-! ## Timer invariant lemmas for C6 -/

theorem timerInv_iff (c : Container) (d : Data) (h : c.data = some d) :
    TimerInv c ↔ TimerHandleInv d.interval c.activeTimers c.classes := by
  unfold TimerInv
  rw [h]

theorem playStep_of_some (c : Container) (d : Data) (id : Nat)
    (hd : d.interval = some id) : playStep c d = (c, d) := by
  simp [playStep, hd]

theorem not_mem_removeClass (cs : List String) (x : String) :
    x ∉ removeClass cs x := by
  unfold removeClass
  intro hx
  have hpx := (List.mem_filter.mp hx).2
  simp at hpx

theorem mem_addClass_self (cs : List String) (x : String) : x ∈ addClass cs x := by
  unfold addClass
  split
  · assumption
  · exact List.mem_append_right _ (List.mem_singleton.mpr rfl)

theorem pauseStep_spec (c : Container) (d : Data) (h : c.data = some d)
    (hinv : TimerInv c) :
    (pauseStep c d).1.data = some (pauseStep c d).2 ∧
    (pauseStep c d).2.interval = none ∧
    (pauseStep c d).1.activeTimers = [] ∧
    "playing" ∉ (pauseStep c d).1.classes := by
  have hh := (timerInv_iff c d h).mp hinv
  cases hd : d.interval with
  | none =>
      rw [hd] at hh
      obtain ⟨h1, h2⟩ := hh
      exact ⟨by simp [pauseStep, hd, h], by simp [pauseStep, hd],
        by simp [pauseStep, hd, h1], by simp [pauseStep, hd]; exact h2⟩
  | some id =>
      rw [hd] at hh
      obtain ⟨h1, h2⟩ := hh
      refine ⟨by simp [pauseStep, hd], by simp [pauseStep, hd], ?_, ?_⟩
      · simp [pauseStep, hd, h1]
      · simp only [pauseStep, hd]
        exact not_mem_removeClass _ _

theorem playStep_spec (c : Container) (d : Data) (h : c.data = some d)
    (hinv : TimerInv c) :
    ∃ id, (playStep c d).1.data = some (playStep c d).2 ∧
      (playStep c d).2.interval = some id ∧
      (playStep c d).1.activeTimers = [id] ∧
      "playing" ∈ (playStep c d).1.classes := by
  have hh := (timerInv_iff c d h).mp hinv
  cases hd : d.interval with
  | some id =>
      rw [hd] at hh
      obtain ⟨h1, h2⟩ := hh
      refine ⟨id, ?_, ?_, ?_, ?_⟩
      · simp [playStep, hd, h]
      · simp [playStep, hd]
      · simp [playStep, hd]
        exact h1
      · simp [playStep, hd]
        exact h2
  | none =>
      rw [hd] at hh
      obtain ⟨h1, h2⟩ := hh
      refine ⟨c.nextId, ?_, ?_, ?_, ?_⟩
      · simp [playStep, hd]
      · simp [playStep, hd]
      · simp [playStep, hd, h1]
      · simp only [playStep, hd]
        exact mem_addClass_self _ _

theorem timerInv_reveal (c : Container) (d : Data) (k : Int)
    (_h : c.data = some d)
    (hh : TimerHandleInv d.interval c.activeTimers c.classes) :
    TimerInv (JsResult.state (containerReveal c d k)) := by
  rw [state_containerReveal c d k]
  refine (timerInv_iff _ _ rfl).mpr ?_
  rw [_reveal_state_interval]
  exact hh

theorem timerInv_pauseReveal (c : Container) (d : Data) (h : c.data = some d)
    (hinv : TimerInv c) (k : Int) :
    TimerInv (JsResult.state
      (containerReveal (pauseStep c d).1 (pauseStep c d).2 k)) := by
  obtain ⟨h1, h2, h3, h4⟩ := pauseStep_spec c d h hinv
  apply timerInv_reveal _ _ k h1
  rw [h2]
  exact ⟨h3, h4⟩

theorem timerInv_play (c : Container) (d : Data) (h : c.data = some d)
    (hinv : TimerInv c) :
    TimerInv (JsResult.state (runCmd c Cmd.play)) := by
  obtain ⟨id, h1, h2, h3, h4⟩ := playStep_spec c d h hinv
  simp only [runCmd, h, playFn, JsResult.state]
  refine (timerInv_iff _ _ h1).mpr ?_
  rw [h2]
  exact ⟨h3, h4⟩

theorem timerInv_pause (c : Container) (d : Data) (h : c.data = some d)
    (hinv : TimerInv c) :
    TimerInv (JsResult.state (runCmd c Cmd.pause)) := by
  obtain ⟨h1, h2, h3, h4⟩ := pauseStep_spec c d h hinv
  simp only [runCmd, h, pauseFn, JsResult.state]
  refine (timerInv_iff _ _ h1).mpr ?_
  rw [h2]
  exact ⟨h3, h4⟩

theorem timerInv_playpause (c : Container) (d : Data) (h : c.data = some d)
    (hinv : TimerInv c) :
    TimerInv (JsResult.state (runCmd c Cmd.playpause)) := by
  cases hd : d.interval with
  | some id =>
      have e : runCmd c Cmd.playpause = runCmd c Cmd.pause := by
        simp [runCmd, h, playpauseFn, hd, pauseFn]
      rw [e]
      exact timerInv_pause c d h hinv
  | none =>
      have e : runCmd c Cmd.playpause = runCmd c Cmd.play := by
        simp [runCmd, h, playpauseFn, hd, playFn]
      rw [e]
      exact timerInv_play c d h hinv

theorem timerInv_tick (c : Container) (d : Data) (h : c.data = some d)
    (hinv : TimerInv c) (id : Nat) :
    TimerInv (JsResult.state (tick c id)) := by
  unfold tick
  split
  · rw [h]
    exact timerInv_reveal c d _ h ((timerInv_iff c d h).mp hinv)
  · simpa [JsResult.state] using hinv

theorem play_play_one_timer (c : Container) (d : Data) (h : c.data = some d)
    (hinv : TimerInv c) :
    (JsResult.state (runCmd (JsResult.state (runCmd c Cmd.play))
      Cmd.play)).activeTimers.length = 1 := by
  obtain ⟨id, h1, h2, h3, h4⟩ := playStep_spec c d h hinv
  have e1 : JsResult.state (runCmd c Cmd.play) = (playStep c d).1 := by
    simp [runCmd, h, playFn, JsResult.state]
  rw [e1]
  have e2 : runCmd (playStep c d).1 Cmd.play =
      JsResult.ok (playStep (playStep c d).1 (playStep c d).2).1 := by
    simp [runCmd, h1, playFn]
  rw [e2]
  have e3 : playStep (playStep c d).1 (playStep c d).2 =
      ((playStep c d).1, (playStep c d).2) := playStep_of_some _ _ id h2
  rw [e3]
  simp [JsResult.state, h3]

theorem pause_clears (c : Container) (d : Data) (h : c.data = some d)
    (hinv : TimerInv c) :
    (JsResult.state (runCmd c Cmd.pause)).activeTimers = [] ∧
    (theData (JsResult.state (runCmd c Cmd.pause))).interval = none ∧
    "playing" ∉ (JsResult.state (runCmd c Cmd.pause)).classes := by
  obtain ⟨h1, h2, h3, h4⟩ := pauseStep_spec c d h hinv
  have e1 : JsResult.state (runCmd c Cmd.pause) = (pauseStep c d).1 := by
    simp [runCmd, h, pauseFn, JsResult.state]
  rw [e1]
  exact ⟨h3, by simp [theData, h1, h2], h4⟩

/-- C6: on an initialized container satisfying the timer-book-keeping
invariant (handle non-null iff the `playing` marker is set, with exactly
the one corresponding live timer), the invariant is preserved by every
command other than `destroy` and by every timer firing; `play` twice in a
row leaves exactly one live timer; and `pause` clears the timer, the
handle and the playing marker. -/
theorem C6_timer_handle_iff_playing (c : Container) (d : Data)
    (h : c.data = some d) (hinv : TimerInv c) :
    (∀ cmd, cmd ≠ Cmd.destroy → TimerInv (JsResult.state (runCmd c cmd))) ∧
    (∀ id, TimerInv (JsResult.state (tick c id))) ∧
    (JsResult.state (runCmd (JsResult.state (runCmd c Cmd.play))
      Cmd.play)).activeTimers.length = 1 ∧
    ((JsResult.state (runCmd c Cmd.pause)).activeTimers = [] ∧
     (theData (JsResult.state (runCmd c Cmd.pause))).interval = none ∧
     "playing" ∉ (JsResult.state (runCmd c Cmd.pause)).classes) := by
  refine ⟨?_, fun id => timerInv_tick c d h hinv id,
    play_play_one_timer c d h hinv, pause_clears c d h hinv⟩
  intro cmd hne
  cases cmd with
  | next =>
      simp only [runCmd, h, nextFn]
      exact timerInv_pauseReveal c d h hinv _
  | previous =>
      simp only [runCmd, h, previousFn]
      exact timerInv_pauseReveal c d h hinv _
  | jump n =>
      simp only [runCmd, h, jumpFn]
      exact timerInv_pauseReveal c d h hinv _
  | play => exact timerInv_play c d h hinv
  | pause => exact timerInv_pause c d h hinv
  | playpause => exact timerInv_playpause c d h hinv
  | destroy => exact absurd rfl hne

theorem C6_witness :
    cPlaying.data = some dPlaying ∧ TimerInv cPlaying ∧
    ((∀ cmd, cmd ≠ Cmd.destroy →
        TimerInv (JsResult.state (runCmd cPlaying cmd))) ∧
     (∀ id, TimerInv (JsResult.state (tick cPlaying id))) ∧
     (JsResult.state (runCmd (JsResult.state (runCmd cPlaying Cmd.play))
       Cmd.play)).activeTimers.length = 1 ∧
     ((JsResult.state (runCmd cPlaying Cmd.pause)).activeTimers = [] ∧
      (theData (JsResult.state (runCmd cPlaying Cmd.pause))).interval = none ∧
      "playing" ∉ (JsResult.state (runCmd cPlaying Cmd.pause)).classes)) :=
  ⟨rfl, by decide, C6_timer_handle_iff_playing cPlaying dPlaying rfl (by decide)⟩

/-! ## Preservation of the reveal invariant by the in-range commands

These lemmas support C5: the exactly-one-revealed invariant is an actual
invariant of `next`, `previous`, timer ticks and `jump` with a
non-negative remainder — only `jump` on a negative remainder (the C1/C5
bug) escapes it. -/

theorem getD_cssSet (s : List SlideCss) (i j : Nat) (z : Int) (op : ℚ)
    (hj : j < s.length) :
    (cssSet s i z op).getD j default =
      if i = j then { s.getD i default with zIndex := z, opacity := op }
      else s.getD j default := by
  unfold cssSet
  rw [List.getD_eq_getElem?_getD, ← List.get?_eq_getElem?,
    List.get?_set_of_lt _ _ hj]
  split
  · rfl
  · rw [List.get?_eq_getElem?]
    exact (List.getD_eq_getElem?_getD _ _ _).symm

theorem inv5_reveal (d : Data) (m : Nat) (hm : m < d.count) (hinv : Inv5 d) :
    ∃ d2, _reveal d (m : Int) = JsResult.ok d2 ∧ Inv5 d2 ∧ d2.current = m ∧
      d2.count = d.count := by
  obtain ⟨hlen, hcur, hop1, hrest⟩ := hinv
  have h0 : d.current < d.slides.length := by rw [hlen]; exact hcur
  have h2 : m < d.slides.length := by rw [hlen]; exact hm
  have hil : (cssSet d.slides d.current 100 0).length = d.slides.length :=
    cssSet_length _ _ _ _
  have houter_m : (cssSet (cssSet d.slides d.current 100 0) m 101 1).getD m default =
      { (cssSet d.slides d.current 100 0).getD m default with
          zIndex := 101, opacity := 1 } := by
    rw [getD_cssSet _ _ _ _ _ (by rw [hil]; exact h2), if_pos rfl]
  have houter_ne : ∀ j, j < d.slides.length → j ≠ m →
      (cssSet (cssSet d.slides d.current 100 0) m 101 1).getD j default =
        (cssSet d.slides d.current 100 0).getD j default := by
    intro j hjl hne
    rw [getD_cssSet _ _ _ _ _ (by rw [hil]; exact hjl), if_neg (Ne.symm hne)]
  have hinner_cur : (cssSet d.slides d.current 100 0).getD d.current default =
      { d.slides.getD d.current default with zIndex := 100, opacity := 0 } := by
    rw [getD_cssSet _ _ _ _ _ h0, if_pos rfl]
  have hinner_ne : ∀ j, j < d.slides.length → j ≠ d.current →
      (cssSet d.slides d.current 100 0).getD j default = d.slides.getD j default := by
    intro j hjl hne
    rw [getD_cssSet _ _ _ _ _ hjl, if_neg (Ne.symm hne)]
  refine ⟨_, _reveal_ok_nat d m h0 h2, ⟨?_, hm, ?_, ?_⟩, rfl, rfl⟩
  · simp [cssSet_length, hlen]
  · show ((cssSet (cssSet d.slides d.current 100 0) m 101 1).getD m default).opacity = 1
    rw [houter_m]
  · intro j hj hjm
    have hjl : j < d.slides.length := by
      rw [hlen]
      exact hj
    simp only [opacAt, zAt]
    rw [houter_ne j hjl hjm, houter_m]
    by_cases hjc : j = d.current
    · subst hjc
      rw [hinner_cur]
      exact ⟨rfl, by simp, by simp⟩
    · rw [hinner_ne j hjl hjc]
      obtain ⟨ho, hz1, hz2⟩ := hrest j hj hjc
      have ho2 : (d.slides.getD j default).opacity = 0 := ho
      have hz3 : (d.slides.getD j default).zIndex ≤ 100 := hz2
      refine ⟨ho2, ?_, hz3⟩
      simp only [SlideCss.zIndex]
      exact le_trans hz3 (by simp)

theorem inv5_pauseStep (c : Container) (d : Data) (hinv : Inv5 d) :
    Inv5 (pauseStep c d).2 := by
  obtain ⟨h1, h2, h3⟩ := pauseStep_snd c d
  unfold Inv5 opacAt zAt at hinv ⊢
  rw [h1, h2, h3]
  exact hinv

theorem inv5_next (c : Container) (d : Data) (h : c.data = some d)
    (hinv : Inv5 d) :
    ∃ c2, runCmd c Cmd.next = JsResult.ok c2 ∧ Inv5 (theData c2) := by
  have hcur : d.current < d.count := hinv.2.1
  obtain ⟨hc1, hc2, hc3⟩ := pauseStep_snd c d
  have hcount : 0 < d.count := Nat.lt_of_le_of_lt (Nat.zero_le _) hcur
  have hm2 : (d.current + 1) % d.count < (pauseStep c d).2.count := by
    rw [hc2]
    exact Nat.mod_lt _ hcount
  obtain ⟨d2, hrev, hinv2, _, _⟩ :=
    inv5_reveal (pauseStep c d).2 _ hm2 (inv5_pauseStep c d hinv)
  have hidx : Int.tmod (((pauseStep c d).2.current : Int) + 1)
      ((pauseStep c d).2.count : Int) =
      (((d.current + 1) % d.count : Nat) : Int) := by
    rw [hc1, hc2, ← Nat.cast_succ, tmod_natCast]
  have e : runCmd c Cmd.next =
      JsResult.ok { (pauseStep c d).1 with data := some d2 } := by
    simp only [runCmd, h, nextFn]
    rw [hidx]
    · exact containerReveal_ok _ _ _ _ hrev
  exact ⟨_, e, by simpa [theData] using hinv2⟩

theorem inv5_previous (c : Container) (d : Data) (h : c.data = some d)
    (hinv : Inv5 d) :
    ∃ c2, runCmd c Cmd.previous = JsResult.ok c2 ∧ Inv5 (theData c2) := by
  have hcur : d.current < d.count := hinv.2.1
  obtain ⟨hc1, hc2, hc3⟩ := pauseStep_snd c d
  have hcount : 0 < d.count := Nat.lt_of_le_of_lt (Nat.zero_le _) hcur
  have hm2 : (d.current + d.count - 1) % d.count < (pauseStep c d).2.count := by
    rw [hc2]
    exact Nat.mod_lt _ hcount
  obtain ⟨d2, hrev, hinv2, _, _⟩ :=
    inv5_reveal (pauseStep c d).2 _ hm2 (inv5_pauseStep c d hinv)
  have hidx : Int.tmod (((pauseStep c d).2.current : Int) +
      ((pauseStep c d).2.count : Int) - 1) ((pauseStep c d).2.count : Int) =
      (((d.current + d.count - 1) % d.count : Nat) : Int) := by
    rw [hc1, hc2]
    have he : ((d.current : Int) + (d.count : Int) - 1) =
        ((d.current + d.count - 1 : Nat) : Int) := by
      omega
    rw [he, tmod_natCast]
  have e : runCmd c Cmd.previous =
      JsResult.ok { (pauseStep c d).1 with data := some d2 } := by
    simp only [runCmd, h, previousFn]
    rw [hidx]
    · exact containerReveal_ok _ _ _ _ hrev
  exact ⟨_, e, by simpa [theData] using hinv2⟩

theorem inv5_jump_nonneg (c : Container) (d : Data) (h : c.data = some d)
    (hinv : Inv5 d) (n : Nat) :
    ∃ c2, runCmd c (Cmd.jump (n : Int)) = JsResult.ok c2 ∧
      Inv5 (theData c2) := by
  have hcur : d.current < d.count := hinv.2.1
  obtain ⟨hc1, hc2, hc3⟩ := pauseStep_snd c d
  have hcount : 0 < d.count := Nat.lt_of_le_of_lt (Nat.zero_le _) hcur
  have hm2 : n % d.count < (pauseStep c d).2.count := by
    rw [hc2]
    exact Nat.mod_lt _ hcount
  obtain ⟨d2, hrev, hinv2, _, _⟩ :=
    inv5_reveal (pauseStep c d).2 _ hm2 (inv5_pauseStep c d hinv)
  have hidx : Int.tmod (n : Int) ((pauseStep c d).2.count : Int) =
      ((n % d.count : Nat) : Int) := by
    rw [hc2, tmod_natCast]
  have e : runCmd c (Cmd.jump (n : Int)) =
      JsResult.ok { (pauseStep c d).1 with data := some d2 } := by
    simp only [runCmd, h, jumpFn]
    rw [hidx]
    · exact containerReveal_ok _ _ _ _ hrev
  exact ⟨_, e, by simpa [theData] using hinv2⟩

theorem inv5_tick (c : Container) (d : Data) (h : c.data = some d)
    (hinv : Inv5 d) (id : Nat) (hid : id ∈ c.activeTimers) :
    ∃ c2, tick c id = JsResult.ok c2 ∧ Inv5 (theData c2) := by
  have hcur : d.current < d.count := hinv.2.1
  have hcount : 0 < d.count := Nat.lt_of_le_of_lt (Nat.zero_le _) hcur
  have hm : (d.current + 1) % d.count < d.count := Nat.mod_lt _ hcount
  obtain ⟨d2, hrev, hinv2, _, _⟩ := inv5_reveal d _ hm hinv
  have hidx : Int.tmod ((d.current : Int) + 1) ((d.count : Int)) =
      (((d.current + 1) % d.count : Nat) : Int) := by
    rw [← Nat.cast_succ, tmod_natCast]
  have e : tick c id = JsResult.ok { c with data := some d2 } := by
    unfold tick
    rw [if_pos hid, h]
    show containerReveal c d (Int.tmod ((d.current : Int) + 1) ((d.count : Int))) =
      JsResult.ok { c with data := some d2 }
    rw [hidx]
    exact containerReveal_ok _ _ _ _ hrev
  exact ⟨_, e, by simpa [theData] using hinv2⟩

end Moodboard
